import Mathlib

/-!
Verification development for the `ragas` function-result caching layer
(`src/ragas/cache.py`) and the bounded output-repair retry loop around
LLM calls (`src/ragas/prompt/base.py`), shallowly embedded in Lean.

Machine-level conventions of the embedding:
* Python exceptions are modelled with `Except` / explicit result constructors.
* The recursive repair loop is not structurally terminating (it genuinely
  diverges on some inputs), so it is embedded with an explicit fuel
  parameter; running out of fuel is a distinct observable outcome.
* The SHA-256 digest at the end of `_generate_cache_key` is modelled by
  returning the digest *input* string: equal inputs give equal digests, and
  the spec treats distinct inputs as giving distinct digests (collisions
  excluded), so key (in)equality is decided by the serialized string.
-/

/- ===================================================================
   Part 1: cache-key canonicalization
   (`cache.py`: `_make_hashable`, `EXCLUDE_KEYS`, `_generate_cache_key`)
   =================================================================== -/

/-- Python values appearing as call arguments, restricted to the JSON-like
fragment used by the cache layer: ints, strings, booleans, `None`,
lists/tuples (the source canonicalizes both to tuples, identically), and
insertion-ordered dicts with string keys.  Pydantic `BaseModel` values are
canonicalized by `_make_hashable` through `model_dump()` into a dict, so the
dict case covers them; sets are outside the modelled fragment. -/
inductive PyVal : Type where
  | pyInt : Int → PyVal
  | pyStr : String → PyVal
  | pyBool : Bool → PyVal
  | pyNone : PyVal
  | pyList : List PyVal → PyVal
  | pyDict : List (String × PyVal) → PyVal

/-- Canonical ("hashable") values produced by `_make_hashable`: scalars and
nested tuples.  A dict entry `(k, v)` becomes the two-element tuple
`hTuple [hStr k, v]`, exactly as Python's `(k, _make_hashable(v))`. -/
inductive HVal : Type where
  | hInt : Int → HVal
  | hStr : String → HVal
  | hBool : Bool → HVal
  | hNone : HVal
  | hTuple : List HVal → HVal

/-- The order used by `sorted(...)` in the dict branch of `_make_hashable`.
Python sorts the `(key, canonicalized value)` tuples lexicographically; dict
keys are unique, so the comparison is always decided by the key alone, which
is what the embedding implements. -/
def keyLe (p q : String × HVal) : Prop := p.1 ≤ q.1

instance : DecidableRel keyLe := fun p q => inferInstanceAs (Decidable (p.1 ≤ q.1))

instance : IsTotal (String × HVal) keyLe := ⟨fun p q => le_total p.1 q.1⟩

instance : IsTrans (String × HVal) keyLe := ⟨fun _ _ _ h h' => le_trans h h'⟩

/-- `sorted(...)` over dict items (the sorting algorithm itself is
irrelevant: any sort produces the unique `keyLe`-sorted permutation when
keys are distinct). -/
def sortPairs (l : List (String × HVal)) : List (String × HVal) :=
  List.insertionSort keyLe l

mutual

/-- `_make_hashable` from `cache.py`: lists/tuples become tuples of
canonicalized elements (order preserved); dicts become the key-sorted tuple
of `(key, canonicalized value)` pairs; scalars are returned as-is. -/
def _make_hashable : PyVal → HVal
  | .pyInt n => .hInt n
  | .pyStr s => .hStr s
  | .pyBool b => .hBool b
  | .pyNone => .hNone
  | .pyList l => .hTuple (hashList l)
  | .pyDict d =>
      .hTuple ((sortPairs (hashPairs d)).map fun kv => .hTuple [.hStr kv.1, kv.2])

/-- Elementwise `_make_hashable` over a list (the generator expression in the
tuple/list branch). -/
def hashList : List PyVal → List HVal
  | [] => []
  | v :: vs => _make_hashable v :: hashList vs

/-- Elementwise `_make_hashable` over dict items (the generator expression in
the dict branch, before sorting). -/
def hashPairs : List (String × PyVal) → List (String × HVal)
  | [] => []
  | kv :: kvs => (kv.1, _make_hashable kv.2) :: hashPairs kvs

end

/-- JSON string-character escaping as performed by `json.dumps` on the
ASCII, control-free fragment used for cache keys. -/
def jsonEscapeChar (c : Char) : String :=
  if c = '\"' then "\\\"" else if c = '\\' then "\\\\" else String.singleton c

/-- JSON rendering of a string literal. -/
def jsonQuote (s : String) : String :=
  "\"" ++ String.join (s.toList.map jsonEscapeChar) ++ "\""

mutual

/-- `json.dumps` rendering of a canonical value (tuples render as JSON
arrays with the default `", "` separator, exactly as `json.dumps` does). -/
def serHVal : HVal → String
  | .hInt n => toString n
  | .hStr s => jsonQuote s
  | .hBool b => if b then "true" else "false"
  | .hNone => "null"
  | .hTuple l => "[" ++ serList l ++ "]"

/-- Comma-separated rendering of a list of canonical values. -/
def serList : List HVal → String
  | [] => ""
  | [v] => serHVal v
  | v :: vs => serHVal v ++ ", " ++ serList vs

end

/-- `EXCLUDE_KEYS` from `cache.py`: keyword parameters removed before
fingerprinting. -/
def EXCLUDE_KEYS : List String := ["callbacks", "llm"]

/-- `_generate_cache_key` from `cache.py`.  For a (possibly bound-method)
callable with qualified name `qualname`, positional arguments `args` and
keyword arguments `kwargs` (in insertion order), this builds the
`json.dumps(key_data, sort_keys=True)` string whose SHA-256 hex digest is the
cache key.  With `sort_keys=True` the three top-level keys are rendered in
the order `"args"`, `"function"`, `"kwargs"`; the braces of the JSON object
are written with character escapes.  The digest itself is modelled as the
identity on this string (see the file header). -/
def _generate_cache_key (ismethod : Bool) (qualname : String)
    (args : List PyVal) (kwargs : List (String × PyVal)) : String :=
  let args := if ismethod then args.drop 1 else args
  let filtered_kwargs := kwargs.filter fun kv => !(EXCLUDE_KEYS.contains kv.1)
  "\x7b\"args\": " ++ serHVal (_make_hashable (.pyList args)) ++
    ", \"function\": " ++ jsonQuote qualname ++
    ", \"kwargs\": " ++ serHVal (_make_hashable (.pyDict filtered_kwargs)) ++ "\x7d"

/- ===================================================================
   Part 2: the memoizing wrapper
   (`cache.py`: `CacheInterface`, `DiskCacheBackend`, `cacher` /
   `sync_wrapper` / `async_wrapper`)
   =================================================================== -/

/-- The `CacheInterface` backend capability, made explicit about state and
failure: every operation takes the backend state `σ` and may fail with an
exception of type `E` (the Python methods can raise; the wrapper has no
handler around them). -/
structure CacheOps (σ V E : Type) where
  has_key : σ → String → Except E Bool
  get : σ → String → Except E V
  set : σ → String → V → Except E σ

/-- Observable outcome of one wrapped invocation: the returned value or
propagated exception, the backend state afterwards, how many times the
wrapped callable ran, and how many backend reads (`has_key`/`get`) and
writes (`set`) were issued. -/
structure WrapOut (σ V E : Type) where
  result : Except E V
  state : σ
  calls : Nat
  reads : Nat
  writes : Nat

/-- `sync_wrapper` from `cacher` in `cache.py` (the `async_wrapper` has the
same structure with `await` inserted; the suspension point does not affect
the state function, so this embedding covers both).  `caching_enabled` is
the process-wide `RAGAS_CACHE_ENABLED` switch read at call time; `keyOf`
stands for `_generate_cache_key(func, args, kwargs)` applied to the
argument; the wrapped `func` may raise (`Except.error`).  Exceptions raised
by backend operations propagate unhandled, exactly as in the source. -/
def sync_wrapper (B : CacheOps σ V E) (caching_enabled : Bool)
    (keyOf : α → String) (func : α → Except E V) (a : α) (s : σ) :
    WrapOut σ V E :=
  if caching_enabled then
    match B.has_key s (keyOf a) with
    | .error e => ⟨.error e, s, 0, 1, 0⟩
    | .ok true =>
        match B.get s (keyOf a) with
        | .error e => ⟨.error e, s, 0, 2, 0⟩
        | .ok v => ⟨.ok v, s, 0, 2, 0⟩
    | .ok false =>
        match func a with
        | .error e => ⟨.error e, s, 1, 1, 0⟩
        | .ok v =>
            match B.set s (keyOf a) v with
            | .error e => ⟨.error e, s, 1, 1, 1⟩
            | .ok s' => ⟨.ok v, s', 1, 1, 1⟩
  else ⟨func a, s, 1, 0, 0⟩

/-- Key membership in an association-list store. -/
def listHasKey (s : List (String × V)) (k : String) : Bool :=
  match s with
  | [] => false
  | e :: es => if e.1 = k then true else listHasKey es k

/-- Lookup in an association-list store (first entry wins, so consing a new
entry models the overwrite semantics of `DiskCacheBackend.set`). -/
def listGet (s : List (String × V)) (k : String) : Option V :=
  match s with
  | [] => none
  | e :: es => if e.1 = k then some e.2 else listGet es k

/-- The reference backend (`DiskCacheBackend`) modelled as an in-memory
association list: a keyed store with `get`/`set`/`has_key` that never raises
(`diskcache.Cache.get` returns `None` on a missing key, modelled with the
default value; the wrapper only calls `get` after `has_key` succeeds). -/
def listBackend (V E : Type) [Inhabited V] :
    CacheOps (List (String × V)) V E where
  has_key s k := .ok (listHasKey s k)
  get s k := .ok ((listGet s k).getD default)
  set s k v := .ok ((k, v) :: s)

/-- Run a sequence of independent wrapped invocations (each exception is
returned to the caller, who continues), threading the backend state. -/
def runCalls (B : CacheOps σ V E) (caching_enabled : Bool)
    (keyOf : α → String) (func : α → Except E V) :
    List α → σ → List (Except E V) × σ
  | [], s => ([], s)
  | a :: as, s =>
      let o := sync_wrapper B caching_enabled keyOf func a s
      let rest := runCalls B caching_enabled keyOf func as o.state
      (o.result :: rest.1, rest.2)

/- ===================================================================
   Part 3: the output-repair retry loop
   (`prompt/base.py`: `PydanticPrompt.generate`, `generate_multiple`,
   `FixOutputFormat` / `fix_output_format_prompt`,
   `RagasOutputParser.parse_output_string`)
   =================================================================== -/

/-- External capabilities consumed by the repair loop, for a target output
model `α`.  `llm k` is the text (or transport error) returned by the `k`-th
single-completion model call of the run; `llmMulti` is the one `n`-completion
call issued by `generate_multiple`.  `decodeMain` is
`PydanticOutputParser.parse` for the prompt's `output_model` (`none` models
an `OutputParserException`); `decodeFix` is the same parser instantiated at
the `text`-field record that `FixOutputFormat` outputs, projected to the
repaired text. -/
structure GenEnv (α : Type) where
  llm : Nat → Except String String
  llmMulti : Except String (List String)
  decodeMain : String → Option α
  decodeFix : String → Option String

/-- Outcome of a run of the (possibly diverging) repair machinery:
a parsed value, a raised `RagasOutputParserException` carrying its
`num_retries` argument, a propagated model-call (transport) exception, or
fuel exhaustion — the observable standing for non-termination. -/
inductive RunResult (α : Type) where
  | ok : α → RunResult α
  | parserExc : Nat → RunResult α
  | llmExc : String → RunResult α
  | outOfFuel : RunResult α
deriving DecidableEq

mutual

/-- `fix_output_format_prompt.generate(llm, data)`: one model call with the
correction instruction, whose own output is parsed through
`RagasOutputParser(StringIO).parse_output_string` with a fresh
`max_retries=3` (this is `PydanticPrompt.generate` instantiated at
`FixOutputFormat`).  Returns the repaired text and the next call index. -/
def fix_generate (env : GenEnv α) (fuel : Nat) (k : Nat) :
    RunResult String × Nat :=
  match fuel with
  | 0 => (.outOfFuel, k)
  | fuel + 1 =>
      match env.llm k with
      | .error e => (.llmExc e, k + 1)
      | .ok text => parse_fix env fuel text 3 (k + 1)
termination_by structural fuel

/-- `RagasOutputParser.parse_output_string` instantiated at the repair
prompt's `StringIO` output model: try to decode; on failure with budget
left, obtain a repaired candidate via `fix_generate` and recurse with the
budget decremented; with the budget at zero raise
`RagasOutputParserException(num_retries=max_retries)`. -/
def parse_fix (env : GenEnv α) (fuel : Nat) (output_string : String)
    (max_retries : Nat) (k : Nat) : RunResult String × Nat :=
  match fuel with
  | 0 => (.outOfFuel, k)
  | fuel + 1 =>
      match env.decodeFix output_string with
      | some r => (.ok r, k)
      | none =>
          if max_retries ≠ 0 then
            match fix_generate env fuel k with
            | (.ok text, k') => parse_fix env fuel text (max_retries - 1) k'
            | (.parserExc n, k') => (.parserExc n, k')
            | (.llmExc e, k') => (.llmExc e, k')
            | (.outOfFuel, k') => (.outOfFuel, k')
          else (.parserExc max_retries, k)
termination_by structural fuel

end

/-- `RagasOutputParser.parse_output_string` at the caller's `output_model`
(the same method as `parse_fix`, instantiated at `α`): decode the candidate
text; on an `OutputParserException` with budget left, run the repair prompt
and recurse on the repaired text with the budget decremented; with the
budget at zero raise `RagasOutputParserException(num_retries=max_retries)`.
Exceptions escaping the repair sub-call propagate unchanged (the `except`
clause only guards the decode). -/
def parse_output_string (env : GenEnv α) (fuel : Nat) (output_string : String)
    (max_retries : Nat) (k : Nat) : RunResult α × Nat :=
  match fuel with
  | 0 => (.outOfFuel, k)
  | fuel + 1 =>
      match env.decodeMain output_string with
      | some r => (.ok r, k)
      | none =>
          if max_retries ≠ 0 then
            match fix_generate env fuel k with
            | (.ok text, k') => parse_output_string env fuel text (max_retries - 1) k'
            | (.parserExc n, k') => (.parserExc n, k')
            | (.llmExc e, k') => (.llmExc e, k')
            | (.outOfFuel, k') => (.outOfFuel, k')
          else (.parserExc max_retries, k)

/-- `PydanticPrompt.generate`: one model call (`n=1`), then
`parse_output_string` on its text with `max_retries=3`.  `process_input` and
`process_output` are the identity in `PydanticPrompt`, and prompt-string
construction is out of scope, so neither is modelled.  The pair returned is
the outcome together with the total number of model calls made. -/
def PydanticPrompt.generate (env : GenEnv α) (fuel : Nat) :
    RunResult α × Nat :=
  match env.llm 0 with
  | .error e => (.llmExc e, 1)
  | .ok text => parse_output_string env fuel text 3 1

/-- The `for i in range(n)` loop of `generate_multiple`: parse each
candidate text in turn with a fresh `max_retries=3`, threading the model
call counter; any exception raised by a candidate's parse propagates out of
the loop at once. -/
def parse_candidates (env : GenEnv α) (fuel : Nat) :
    List String → Nat → RunResult (List α) × Nat
  | [], k => (.ok [], k)
  | t :: ts, k =>
      match parse_output_string env fuel t 3 k with
      | (.ok r, k') =>
          match parse_candidates env fuel ts k' with
          | (.ok rs, k'') => (.ok (r :: rs), k'')
          | (.parserExc n, k'') => (.parserExc n, k'')
          | (.llmExc e, k'') => (.llmExc e, k'')
          | (.outOfFuel, k'') => (.outOfFuel, k'')
      | (.parserExc n, k') => (.parserExc n, k')
      | (.llmExc e, k') => (.llmExc e, k')
      | (.outOfFuel, k') => (.outOfFuel, k')

/-- `PydanticPrompt.generate_multiple`: one model call requesting `n`
completions (counted once), then the parse loop over
`resp.generations[0][i].text` for `i < n`.  Indexing past the returned list
would be a Python `IndexError`; the embedding uses a default, and theorems
only instantiate it with enough generations. -/
def PydanticPrompt.generate_multiple (env : GenEnv α) (n : Nat) (fuel : Nat) :
    RunResult (List α) × Nat :=
  match env.llmMulti with
  | .error e => (.llmExc e, 1)
  | .ok texts =>
      parse_candidates env fuel ((List.range n).map fun i => texts.getD i "") 1

/- ===================================================================
   Part 4: lemmas about canonicalization
   =================================================================== -/

theorem hashPairs_eq_map (d : List (String × PyVal)) :
    hashPairs d = d.map fun kv => (kv.1, _make_hashable kv.2) := by
  induction d with
  | nil => rfl
  | cons kv kvs ih => simp [hashPairs, ih]

/-- Strict version of `keyLe`, used to make sortedness rigid when keys are
distinct. -/
def keyLt (p q : String × HVal) : Prop := p.1 < q.1

instance : IsAntisymm (String × HVal) keyLt :=
  ⟨fun _ _ h h' => (lt_asymm h h').elim⟩

theorem sorted_keyLt (l : List (String × HVal)) (hs : l.Sorted keyLe)
    (hn : (l.map Prod.fst).Nodup) : l.Sorted keyLt := by
  have hne : l.Pairwise fun p q => p.1 ≠ q.1 := List.pairwise_map.mp hn
  exact (hs.and hne).imp fun h => lt_of_le_of_ne h.1 h.2

theorem sortPairs_eq_of_perm {l₁ l₂ : List (String × HVal)} (hp : l₁.Perm l₂)
    (hn : (l₁.map Prod.fst).Nodup) : sortPairs l₁ = sortPairs l₂ := by
  have hp' : (sortPairs l₁).Perm (sortPairs l₂) :=
    (List.perm_insertionSort keyLe l₁).trans
      (hp.trans (List.perm_insertionSort keyLe l₂).symm)
  have hn₁ : ((sortPairs l₁).map Prod.fst).Nodup :=
    (((List.perm_insertionSort keyLe l₁).map Prod.fst).nodup_iff).mpr hn
  have hn₂ : ((sortPairs l₂).map Prod.fst).Nodup :=
    ((hp'.map Prod.fst).nodup_iff).mp hn₁
  exact List.eq_of_perm_of_sorted hp'
    (sorted_keyLt _ (List.sorted_insertionSort keyLe l₁) hn₁)
    (sorted_keyLt _ (List.sorted_insertionSort keyLe l₂) hn₂)

theorem make_hashable_dict_perm {d₁ d₂ : List (String × PyVal)} (hp : d₁.Perm d₂)
    (hn : (d₁.map Prod.fst).Nodup) :
    _make_hashable (.pyDict d₁) = _make_hashable (.pyDict d₂) := by
  have h1 : (hashPairs d₁).Perm (hashPairs d₂) := by
    rw [hashPairs_eq_map, hashPairs_eq_map]
    exact hp.map _
  have h2 : ((hashPairs d₁).map Prod.fst).Nodup := by
    rw [hashPairs_eq_map, List.map_map]
    simpa [Function.comp] using hn
  simp [_make_hashable, sortPairs_eq_of_perm h1 h2]

/- ===================================================================
   Part 5: lemmas about the memoizing wrapper
   =================================================================== -/

theorem listGet_of_hasKey {V : Type} {s : List (String × V)} {k : String}
    (h : listHasKey s k = true) : ∃ v, listGet s k = some v := by
  induction s with
  | nil => simp [listHasKey] at h
  | cons e es ih =>
      by_cases he : e.1 = k
      · exact ⟨e.2, by simp [listGet, he]⟩
      · simp only [listHasKey, he, if_false] at h
        obtain ⟨v, hv⟩ := ih h
        exact ⟨v, by simp [listGet, he, hv]⟩

theorem listGet_mem {V : Type} {s : List (String × V)} {k : String} {v : V}
    (h : listGet s k = some v) : (k, v) ∈ s := by
  induction s with
  | nil => simp [listGet] at h
  | cons e es ih =>
      obtain ⟨k1, v1⟩ := e
      by_cases he : k1 = k
      · subst he
        simp only [listGet, if_pos] at h
        injection h with h
        subst h
        exact List.mem_cons_self _ _
      · simp only [listGet, he, if_false] at h
        exact List.mem_cons_of_mem _ (ih h)

/-- Semantic soundness of a store's contents for `func` under `keyOf`: every
entry holds the (successful) result of any argument mapping to its key. -/
def GoodCache {α V E : Type} (keyOf : α → String) (func : α → Except E V)
    (s : List (String × V)) : Prop :=
  ∀ kv ∈ s, ∀ a, keyOf a = kv.1 → func a = .ok kv.2

theorem wrapper_result_of_good {α V E : Type} [Inhabited V]
    {keyOf : α → String} {func : α → Except E V} {s : List (String × V)}
    (hg : GoodCache keyOf func s) (a : α) :
    (sync_wrapper (listBackend V E) true keyOf func a s).result = func a := by
  rcases hh : listHasKey s (keyOf a) with _ | _
  · rcases hf : func a with e | v <;>
      simp [sync_wrapper, listBackend, hh, hf]
  · obtain ⟨v, hv⟩ := listGet_of_hasKey hh
    have := hg (keyOf a, v) (listGet_mem hv) a rfl
    simp [sync_wrapper, listBackend, hh, hv, this]

theorem wrapper_state_good {α V E : Type} [Inhabited V]
    {keyOf : α → String} {func : α → Except E V} {s : List (String × V)}
    (hpure : ∀ a b, keyOf a = keyOf b → func a = func b)
    (hg : GoodCache keyOf func s) (a : α) :
    GoodCache keyOf func (sync_wrapper (listBackend V E) true keyOf func a s).state := by
  rcases hh : listHasKey s (keyOf a) with _ | _
  · rcases hf : func a with e | v
    · simpa [sync_wrapper, listBackend, hh, hf] using hg
    · simp only [sync_wrapper, listBackend, hh, hf, if_true]
      intro kv hkv b hb
      rcases List.mem_cons.mp hkv with hkv | hkv
      · subst hkv
        exact (hpure b a hb).trans hf
      · exact hg kv hkv b hb
  · simpa [sync_wrapper, listBackend, hh] using hg

theorem runCalls_disabled {α σ V E : Type} (B : CacheOps σ V E)
    (keyOf : α → String) (func : α → Except E V) (as : List α) (s : σ) :
    runCalls B false keyOf func as s = (as.map func, s) := by
  induction as generalizing s with
  | nil => rfl
  | cons a as ih => simp [runCalls, sync_wrapper, ih]

theorem runCalls_enabled_of_good {α V E : Type} [Inhabited V]
    {keyOf : α → String} {func : α → Except E V}
    (hpure : ∀ a b, keyOf a = keyOf b → func a = func b)
    (as : List α) (s : List (String × V)) (hg : GoodCache keyOf func s) :
    (runCalls (listBackend V E) true keyOf func as s).1 = as.map func := by
  induction as generalizing s with
  | nil => rfl
  | cons a as ih =>
      simp only [runCalls, List.map]
      rw [wrapper_result_of_good hg a, ih _ (wrapper_state_good hpure hg a)]

/- ===================================================================
   Part 6: lemmas about the repair loop
   =================================================================== -/

theorem fix_diverges {α : Type} (env : GenEnv α)
    (hF : ∀ s, env.decodeFix s = none)
    (hL : ∀ i, ∃ t, env.llm i = .ok t) :
    ∀ fuel, (∀ k, (fix_generate env fuel k).1 = .outOfFuel) ∧
      (∀ s b k, b ≠ 0 → (parse_fix env fuel s b k).1 = .outOfFuel) := by
  intro fuel
  induction fuel using Nat.strong_induction_on with
  | _ fuel ih =>
      match fuel with
      | 0 => exact ⟨fun _ => rfl, fun _ _ _ _ => rfl⟩
      | fuel + 1 =>
          refine ⟨fun k => ?_, fun s b k hb => ?_⟩
          · obtain ⟨t, ht⟩ := hL k
            have h := (ih fuel (Nat.lt_succ_self _)).2 t 3 (k + 1) (by decide)
            simp only [fix_generate, ht]
            exact h
          · have h := (ih fuel (Nat.lt_succ_self _)).1 k
            simp only [parse_fix, hF s, if_pos hb]
            rcases hfix : fix_generate env fuel k with ⟨r, k'⟩
            rw [hfix] at h
            simp only at h
            subst h
            rfl

theorem parse_diverges {α : Type} (env : GenEnv α)
    (hF : ∀ s, env.decodeFix s = none)
    (hL : ∀ i, ∃ t, env.llm i = .ok t)
    {s : String} (hM : env.decodeMain s = none)
    {N : Nat} (hN : N ≠ 0) (k : Nat) :
    ∀ fuel, (parse_output_string env fuel s N k).1 = .outOfFuel := by
  intro fuel
  match fuel with
  | 0 => rfl
  | fuel + 1 =>
      have h := (fix_diverges env hF hL fuel).1 k
      simp only [parse_output_string, hM, if_pos hN]
      rcases hfix : fix_generate env fuel k with ⟨r, k'⟩
      rw [hfix] at h
      simp only at h
      subst h
      rfl

theorem parse_step_ok {α : Type} {env : GenEnv α} {s : String} {r : α}
    (fuel N k : Nat) (hM : env.decodeMain s = some r) :
    parse_output_string env (fuel + 1) s N k = (.ok r, k) := by
  simp [parse_output_string, hM]

theorem parse_step_exhausted {α : Type} {env : GenEnv α} {s : String}
    (fuel k : Nat) (hM : env.decodeMain s = none) :
    parse_output_string env (fuel + 1) s 0 k = (.parserExc 0, k) := by
  simp [parse_output_string, hM]

theorem parse_step_repair {α : Type} {env : GenEnv α} {s t' : String}
    {N k k' : Nat} (fuel : Nat) (hM : env.decodeMain s = none) (hN : N ≠ 0)
    (hfix : fix_generate env fuel k = (.ok t', k')) :
    parse_output_string env (fuel + 1) s N k =
      parse_output_string env fuel t' (N - 1) k' := by
  simp only [parse_output_string, hM, if_pos hN, hfix]

theorem fix_generate_ok {α : Type} {env : GenEnv α} {t t' : String}
    (fuel k : Nat) (ht : env.llm k = .ok t) (ht' : env.decodeFix t = some t') :
    fix_generate env (fuel + 2) k = (.ok t', k + 1) := by
  simp [fix_generate, ht, parse_fix, ht']

theorem repair_bound {α : Type} (env : GenEnv α)
    (hM : ∀ s, env.decodeMain s = none)
    (hF : ∀ s, ∃ t, env.decodeFix s = some t)
    (hL : ∀ i, ∃ t, env.llm i = .ok t) :
    ∀ (N fuel k : Nat) (s : String), N + 3 ≤ fuel →
      parse_output_string env fuel s N k = (.parserExc 0, k + N) := by
  intro N
  induction N with
  | zero =>
      intro fuel k s hfuel
      obtain ⟨f, rfl⟩ : ∃ f, fuel = f + 1 := ⟨fuel - 1, by omega⟩
      simpa using parse_step_exhausted f k (hM s)
  | succ N ihN =>
      intro fuel k s hfuel
      obtain ⟨g, rfl⟩ : ∃ g, fuel = g + 2 + 1 := ⟨fuel - 3, by omega⟩
      obtain ⟨t, ht⟩ := hL k
      obtain ⟨t', ht'⟩ := hF t
      have hfix : fix_generate env (g + 2) k = (.ok t', k + 1) :=
        fix_generate_ok g k ht ht'
      rw [parse_step_repair (g + 2) (hM s) (Nat.succ_ne_zero N) hfix,
        show N + 1 - 1 = N from rfl, ihN (g + 2) (k + 1) t' (by omega),
        show k + 1 + N = k + (N + 1) from by omega]

theorem parserExc_carries_zero_fix {α : Type} (env : GenEnv α) :
    ∀ fuel, (∀ k m k', fix_generate env fuel k = (.parserExc m, k') → m = 0) ∧
      (∀ s b k m k', parse_fix env fuel s b k = (.parserExc m, k') → m = 0) := by
  intro fuel
  induction fuel using Nat.strong_induction_on with
  | _ fuel ih =>
      match fuel with
      | 0 =>
          refine ⟨fun k m k' h => ?_, fun s b k m k' h => ?_⟩ <;>
            simp [fix_generate, parse_fix] at h
      | fuel + 1 =>
          refine ⟨fun k m k' h => ?_, fun s b k m k' h => ?_⟩
          · rcases hlk : env.llm k with e | t
            · simp [fix_generate, hlk] at h
            · simp only [fix_generate, hlk] at h
              exact (ih fuel (Nat.lt_succ_self _)).2 t 3 (k + 1) m k' h
          · rcases hd : env.decodeFix s with _ | r
            · by_cases hb : b ≠ 0
              · simp only [parse_fix, hd, if_pos hb] at h
                rcases hfix : fix_generate env fuel k with ⟨r', j⟩
                rw [hfix] at h
                rcases r' with v | n | e | _
                · exact (ih fuel (Nat.lt_succ_self _)).2 _ _ _ _ _ h
                · have hn := (ih fuel (Nat.lt_succ_self _)).1 k n j hfix
                  simp only [Prod.mk.injEq, RunResult.parserExc.injEq] at h
                  omega
                · simp at h
                · simp at h
              · push_neg at hb
                simp only [parse_fix, hd, hb, ne_eq, not_true_eq_false, if_false,
                  Prod.mk.injEq, RunResult.parserExc.injEq] at h
                omega
            · simp [parse_fix, hd] at h

theorem parserExc_carries_zero {α : Type} (env : GenEnv α) :
    ∀ fuel s N k m k',
      parse_output_string env fuel s N k = (.parserExc m, k') → m = 0 := by
  intro fuel s N k m k' h
  match fuel with
  | 0 => simp [parse_output_string] at h
  | fuel + 1 =>
      rcases hd : env.decodeMain s with _ | r
      · by_cases hN : N ≠ 0
        · simp only [parse_output_string, hd, if_pos hN] at h
          rcases hfix : fix_generate env fuel k with ⟨r', j⟩
          rw [hfix] at h
          rcases r' with v | n | e | _
          · exact parserExc_carries_zero env fuel _ _ _ m k' h
          · have hn := (parserExc_carries_zero_fix env fuel).1 k n j hfix
            simp only [Prod.mk.injEq, RunResult.parserExc.injEq] at h
            omega
          · simp at h
          · simp at h
        · push_neg at hN
          simp only [parse_output_string, hd, hN, ne_eq, not_true_eq_false, if_false,
            Prod.mk.injEq, RunResult.parserExc.injEq] at h
          omega
      · simp [parse_output_string, hd] at h

/- ===================================================================
   Part 7: concrete test fixtures
   =================================================================== -/

/-- Environment in which decoding fails on every text, for both the target
output model and the repair prompt's output, while the model itself always
answers. -/
def cenvAllFail : GenEnv Nat where
  llm := fun _ => .ok "text"
  llmMulti := .ok ["text"]
  decodeMain := fun _ => none
  decodeFix := fun _ => none

/-- Environment in which the target decoder fails on every text but every
repair attempt's own output parses (the repaired text is returned as-is). -/
def cenvMixed : GenEnv Nat where
  llm := fun _ => .ok "text"
  llmMulti := .ok ["text"]
  decodeMain := fun _ => none
  decodeFix := fun s => some s

/-- Environment whose model call fails with a transport error. -/
def cenvLlmErr : GenEnv Nat where
  llm := fun _ => .error "boom"
  llmMulti := .error "boom"
  decodeMain := fun _ => none
  decodeFix := fun s => some s

/-- Two-candidate environment: the first candidate text (and everything its
repairs produce) never decodes, while the second candidate text would decode
successfully. -/
def cenvMulti : GenEnv Nat where
  llm := fun _ => .ok "bad"
  llmMulti := .ok ["bad", "good"]
  decodeMain := fun s => if s = "good" then some 7 else none
  decodeFix := fun s => some s

/-- Two-candidate environment in which candidate one succeeds after 1 repair
and candidate two succeeds after 3 repairs (so 4 repairs happen in total,
more than one candidate's whole budget). -/
def cenvBudget : GenEnv Nat where
  llm := fun i => .ok (toString i)
  llmMulti := .ok ["c0", "c1"]
  decodeMain := fun s => if s = "1" ∨ s = "4" then some 5 else none
  decodeFix := fun s => some s

/- ===================================================================
   Part 8: the claims
   =================================================================== -/

/-- C1 (counterexample): the claim as stated is false.  With a structured
decoder that fails on every text it is given — including the texts produced
inside repair attempts — `PydanticPrompt.generate` does not make `N + 1 = 4`
model calls and then raise `RagasOutputParserException`: the mutual
recursion between `parse_output_string` and the repair prompt keeps issuing
model calls (more than 4 already at fuel 30) and never reaches the raise. -/
theorem c1_counterexample :
    (PydanticPrompt.generate cenvAllFail 30).1 = .outOfFuel ∧
      4 < (PydanticPrompt.generate cenvAllFail 30).2 := by decide

/-- C1 (amended): if the decoder for the target output model fails on every
text while every repair attempt's own output parses successfully (and the
model always answers), then `parse_output_string` with retry budget `N`
makes exactly `N` repair model calls and raises
`RagasOutputParserException`, and one call to `PydanticPrompt.generate`
(whose budget is hardcoded to `N = 3`) makes exactly `N + 1 = 4` model calls
(1 original + 3 repairs) and raises. -/
theorem c1_repair_bound {α : Type} (env : GenEnv α)
    (hM : ∀ s, env.decodeMain s = none)
    (hF : ∀ s, ∃ t, env.decodeFix s = some t)
    (hL : ∀ i, ∃ t, env.llm i = .ok t) :
    (∀ (N fuel k : Nat) (s : String), N + 3 ≤ fuel →
        parse_output_string env fuel s N k = (.parserExc 0, k + N)) ∧
    (∀ fuel, 7 ≤ fuel → PydanticPrompt.generate env fuel = (.parserExc 0, 4)) := by
  refine ⟨repair_bound env hM hF hL, fun fuel hfuel => ?_⟩
  obtain ⟨t, ht⟩ := hL 0
  have h := repair_bound env hM hF hL 3 fuel 1 t (by omega)
  simp [PydanticPrompt.generate, ht, h]

/-- C1 (witness): the amended bound evaluated in a concrete environment. -/
theorem c1_witness : PydanticPrompt.generate cenvMixed 7 = (.parserExc 0, 4) :=
  (c1_repair_bound cenvMixed (fun _ => rfl) (fun s => ⟨s, rfl⟩)
    (fun _ => ⟨"text", rfl⟩)).2 7 (by omega)

/-- C6 (counterexample): when the repair loop exhausts its budget after 3
repair attempts (4 model calls in total), the raised
`RagasOutputParserException` carries `num_retries = 0` — the exhausted
remaining budget — not the number of repair attempts made (3), and the call
site passes it no malformed text at all. -/
theorem c6_counterexample :
    PydanticPrompt.generate cenvMixed 20 = (.parserExc 0, 4) ∧
      (0 : Nat) ≠ 4 - 1 := by decide

/-- C6 (amended): the terminal error raised on exhaustion is the distinct
`RagasOutputParserException`, but its `num_retries` argument is always the
remaining budget at the raise site, namely `0`, whatever the number of
attempts made; no malformed text is passed to it. -/
theorem c6_exhaustion_error {α : Type} (env : GenEnv α)
    (fuel : Nat) (s : String) (N k m k' : Nat)
    (h : parse_output_string env fuel s N k = (.parserExc m, k')) : m = 0 :=
  parserExc_carries_zero env fuel s N k m k' h

/-- C6 (witness): the amended statement applied at a concrete exhausted run. -/
theorem c6_witness : (0 : Nat) = 0 :=
  c6_exhaustion_error cenvMixed 20 "text" 3 1 0 4 (by decide)

/-- C7 (confirmed): if the model call itself fails with a transport error,
the error propagates unchanged out of `PydanticPrompt.generate` after a
single model call, with no repair attempt made and no retry budget
consumed; likewise a transport failure inside a repair cycle propagates
unchanged from `parse_output_string` whatever the remaining budget. -/
theorem c7_invocation_failure_bypass {α : Type} (env : GenEnv α) :
    (∀ e fuel, env.llm 0 = .error e →
        PydanticPrompt.generate env fuel = (.llmExc e, 1)) ∧
    (∀ e s N k fuel, env.decodeMain s = none → N ≠ 0 → env.llm k = .error e →
        parse_output_string env (fuel + 2) s N k = (.llmExc e, k + 1)) := by
  constructor
  · intro e fuel h
    simp [PydanticPrompt.generate, h]
  · intro e s N k fuel hM hN hlk
    have hfix : fix_generate env (fuel + 1) k = (.llmExc e, k + 1) := by
      simp [fix_generate, hlk]
    simp only [parse_output_string, hM, if_pos hN, hfix]

/-- C7 (witness): the bypass evaluated in a concrete environment. -/
theorem c7_witness : PydanticPrompt.generate cenvLlmErr 5 = (.llmExc "boom", 1) :=
  (c7_invocation_failure_bypass cenvLlmErr).1 "boom" 5 rfl

/-- C8 (counterexample): the claim that one candidate's repair failure does
not abort the others is false.  With two requested candidates, where the
first candidate's text never decodes (exhausting its budget) while the
second candidate's text would decode to `7`, `generate_multiple` raises
`RagasOutputParserException` out of the loop and never parses the second
candidate: no list of results is produced. -/
theorem c8_counterexample :
    PydanticPrompt.generate_multiple cenvMulti 2 20 = (.parserExc 0, 4) ∧
      cenvMulti.decodeMain "good" = some 7 ∧
      cenvMulti.llmMulti = .ok ["bad", "good"] :=
  ⟨by decide, by decide, rfl⟩

/-- C8 (amended): each of the `K` candidates is parsed with its own fresh
retry budget of 3 (the concrete run performs 4 repairs in total across two
succeeding candidates, more than a single shared budget would allow), but a
candidate whose parse raises aborts the loop: if the first candidate's
parse raises `RagasOutputParserException`, `generate_multiple` propagates
it and the remaining candidates are never parsed. -/
theorem c8_candidate_budgets_and_abort {α : Type} (env : GenEnv α) :
    (∀ (n fuel : Nat) (texts : List String) (m k' : Nat),
        env.llmMulti = .ok texts → 1 ≤ n →
        parse_output_string env fuel (texts.getD 0 "") 3 1 = (.parserExc m, k') →
        PydanticPrompt.generate_multiple env n fuel = (.parserExc m, k')) ∧
    PydanticPrompt.generate_multiple cenvBudget 2 20 = (.ok [5, 5], 5) := by
  constructor
  · intro n fuel texts m k' hmulti hn hparse
    obtain ⟨n', rfl⟩ : ∃ n', n = n' + 1 := ⟨n - 1, by omega⟩
    simp only [PydanticPrompt.generate_multiple, hmulti, List.range_succ_eq_map,
      List.map_cons, parse_candidates, hparse]
  · decide

/-- C8 (witness): the abort behaviour evaluated in a concrete environment. -/
theorem c8_witness : PydanticPrompt.generate_multiple cenvMulti 2 20 = (.parserExc 0, 4) :=
  (c8_candidate_budgets_and_abort cenvMulti).1 2 20 ["bad", "good"] 0 4 rfl
    (by omega) (by decide)

/-- C10 (confirmed): each repair attempt parses its own model output through
the same machinery with a fresh budget of 3, so if decoding of repair
outputs also always fails (and the model always answers), the mutual
recursion between `parse_output_string` and the repair prompt's generate
never reaches a base case: for every fuel bound the run is still unfinished,
i.e. the function diverges. -/
theorem c10_repair_recursion_diverges {α : Type} (env : GenEnv α)
    (hF : ∀ s, env.decodeFix s = none)
    (hL : ∀ i, ∃ t, env.llm i = .ok t)
    {s : String} (hM : env.decodeMain s = none) {N : Nat} (hN : N ≠ 0) (k : Nat) :
    ∀ fuel, (parse_output_string env fuel s N k).1 = .outOfFuel :=
  parse_diverges env hF hL hM hN k

/-- C10 (witness): divergence observed at a concrete fuel bound. -/
theorem c10_witness : (parse_output_string cenvAllFail 9 "x" 1 0).1 = .outOfFuel :=
  c10_repair_recursion_diverges cenvAllFail (fun _ => rfl)
    (fun _ => ⟨"text", rfl⟩) rfl (by omega) 0 9

/-- C2 (confirmed): `_generate_cache_key` is invariant under reordering of
keyword arguments and under arbitrary changes to the excluded parameters
`callbacks` and `llm` (any two keyword mappings whose non-excluded entries
are a permutation of one another, keys being unique, get the identical key);
and on the concrete inputs, `\x7ba: 1, b: [1, 2]\x7d` and its key-reordered
variant get the same key while reordering the list `[1, 2]` to `[2, 1]`
changes the key. -/
theorem c2_fingerprint_determinism :
    (∀ (ismethod : Bool) (qualname : String) (args : List PyVal)
        (kwargs₁ kwargs₂ : List (String × PyVal)),
        ((kwargs₁.filter fun kv => !(EXCLUDE_KEYS.contains kv.1)).map Prod.fst).Nodup →
        (kwargs₁.filter fun kv => !(EXCLUDE_KEYS.contains kv.1)).Perm
          (kwargs₂.filter fun kv => !(EXCLUDE_KEYS.contains kv.1)) →
        _generate_cache_key ismethod qualname args kwargs₁ =
          _generate_cache_key ismethod qualname args kwargs₂) ∧
    _generate_cache_key false "f" []
        [("a", .pyInt 1), ("b", .pyList [.pyInt 1, .pyInt 2])] =
      _generate_cache_key false "f" []
        [("b", .pyList [.pyInt 1, .pyInt 2]), ("a", .pyInt 1)] ∧
    _generate_cache_key false "f" []
        [("a", .pyInt 1), ("b", .pyList [.pyInt 2, .pyInt 1])] ≠
      _generate_cache_key false "f" []
        [("a", .pyInt 1), ("b", .pyList [.pyInt 1, .pyInt 2])] := by
  refine ⟨fun ismethod qualname args kw₁ kw₂ hn hp => ?_, ?_, ?_⟩
  · have h := make_hashable_dict_perm hp hn
    unfold _generate_cache_key
    simp only [h]
  · simp +decide [_generate_cache_key, _make_hashable, hashList, hashPairs, serHVal,
      serList, sortPairs, jsonQuote, jsonEscapeChar, EXCLUDE_KEYS, keyLe]
  · simp +decide [_generate_cache_key, _make_hashable, hashList, hashPairs, serHVal,
      serList, sortPairs, jsonQuote, jsonEscapeChar, EXCLUDE_KEYS, keyLe]

/-- C2 (witness): the determinism part applied to a concrete reordered pair
of keyword mappings whose excluded `llm` entries also differ. -/
theorem c2_witness :
    _generate_cache_key false "f" []
        [("a", .pyInt 1), ("b", .pyBool true), ("llm", .pyStr "x")] =
      _generate_cache_key false "f" []
        [("b", .pyBool true), ("a", .pyInt 1), ("llm", .pyStr "y")] :=
  c2_fingerprint_determinism.1 false "f" [] _ _ (by decide)
    (List.Perm.swap _ _ _)

/-- C3 (confirmed): while caching is enabled, a call whose fingerprint the
backend reports present returns the stored value with zero invocations of
the wrapped callable and an unchanged store; consequently, whenever an
enabled call returned a successful value, repeating the identical call
against the resulting store invokes the callable zero times and returns
that identical value. -/
theorem c3_cache_hit {α V E : Type} [Inhabited V]
    (keyOf : α → String) (func : α → Except E V) :
    (∀ (s : List (String × V)) (a : α),
        listHasKey s (keyOf a) = true →
        (sync_wrapper (listBackend V E) true keyOf func a s).calls = 0 ∧
        (sync_wrapper (listBackend V E) true keyOf func a s).result =
          .ok ((listGet s (keyOf a)).getD default) ∧
        (sync_wrapper (listBackend V E) true keyOf func a s).state = s) ∧
    (∀ (s : List (String × V)) (a : α) (v : V),
        (sync_wrapper (listBackend V E) true keyOf func a s).result = .ok v →
        (sync_wrapper (listBackend V E) true keyOf func a
            (sync_wrapper (listBackend V E) true keyOf func a s).state).result = .ok v ∧
        (sync_wrapper (listBackend V E) true keyOf func a
            (sync_wrapper (listBackend V E) true keyOf func a s).state).calls = 0) := by
  constructor
  · intro s a h
    refine ⟨?_, ?_, ?_⟩ <;> simp [sync_wrapper, listBackend, h]
  · intro s a v h1
    rcases hh : listHasKey s (keyOf a) with _ | _
    · rcases hf : func a with e | w
      · simp [sync_wrapper, listBackend, hh, hf] at h1
      · have hv : w = v := by
          simpa [sync_wrapper, listBackend, hh, hf] using h1
        subst hv
        constructor <;>
          simp [sync_wrapper, listBackend, hh, hf, listHasKey, listGet]
    · have hv : (listGet s (keyOf a)).getD default = v := by
        simpa [sync_wrapper, listBackend, hh] using h1
      constructor <;> simp [sync_wrapper, listBackend, hh, hv]

/-- C3 (witness): a hit on a concrete store returns the stored value with
zero invocations. -/
theorem c3_witness :
    (sync_wrapper (listBackend Nat String) true (fun _ : Nat => "k")
        (fun _ => .ok 42) 0 [("k", 99)]).calls = 0 ∧
      (sync_wrapper (listBackend Nat String) true (fun _ : Nat => "k")
          (fun _ => .ok 42) 0 [("k", 99)]).result = .ok 99 ∧
      (sync_wrapper (listBackend Nat String) true (fun _ : Nat => "k")
          (fun _ => .ok 42) 0 [("k", 99)]).state = [("k", 99)] :=
  (c3_cache_hit (fun _ : Nat => "k") (fun _ => .ok 42)).1 [("k", 99)] 0 (by decide)

/-- C4 (confirmed): with the enable switch off, the wrapper calls through
unconditionally — it performs no backend read or write, leaves the store
untouched, and returns exactly the callable's result, for any backend; and
for a callable that is pure with respect to its fingerprint, any sequence
of disabled calls returns exactly the same results as the same sequence of
enabled calls started from an empty cache. -/
theorem c4_disabled_transparent {α σ V E : Type} [Inhabited V] :
    (∀ (B : CacheOps σ V E) (keyOf : α → String) (func : α → Except E V)
        (a : α) (s : σ),
        sync_wrapper B false keyOf func a s = ⟨func a, s, 1, 0, 0⟩) ∧
    (∀ (keyOf : α → String) (func : α → Except E V),
        (∀ a b, keyOf a = keyOf b → func a = func b) →
        ∀ (as : List α) (s₀ : List (String × V)),
          (runCalls (listBackend V E) false keyOf func as s₀).1 =
            (runCalls (listBackend V E) true keyOf func as []).1) := by
  constructor
  · intro B keyOf func a s
    rfl
  · intro keyOf func hpure as s₀
    rw [runCalls_disabled,
      runCalls_enabled_of_good hpure as [] (fun kv hkv => absurd hkv (List.not_mem_nil kv))]

/-- C4 (witness): disabled pass-through and the empty-cache equivalence on a
concrete repeated call. -/
theorem c4_witness :
    sync_wrapper (listBackend Nat String) false (fun _ : Nat => "k")
        (fun _ => .ok 42) 0 [] = ⟨.ok 42, [], 1, 0, 0⟩ ∧
      (runCalls (listBackend Nat String) false (fun _ : Nat => "k")
          (fun _ => .ok 42) [0, 0] [("z", 5)]).1 =
        (runCalls (listBackend Nat String) true (fun _ : Nat => "k")
            (fun _ => .ok 42) [0, 0] []).1 :=
  ⟨(@c4_disabled_transparent Nat (List (String × Nat)) Nat String _).1
      (listBackend Nat String) (fun _ : Nat => "k") (fun _ => .ok 42) 0 [],
    (@c4_disabled_transparent Nat (List (String × Nat)) Nat String _).2
      (fun _ : Nat => "k") (fun _ => (.ok 42 : Except String Nat))
      (fun _ _ _ => rfl) [0, 0] [("z", 5)]⟩

/-- C5 (confirmed): an enabled call whose wrapped callable raises writes no
cache entry under its fingerprint (the store is unchanged), propagates the
error unchanged, and a subsequent identical call invokes the wrapped
callable again (it runs once more and fails the same way). -/
theorem c5_failure_not_cached {α V E : Type} [Inhabited V]
    (keyOf : α → String) (func : α → Except E V) (s : List (String × V))
    (a : α) (e : E) (hmiss : listHasKey s (keyOf a) = false)
    (herr : func a = .error e) :
    sync_wrapper (listBackend V E) true keyOf func a s =
      ⟨.error e, s, 1, 1, 0⟩ ∧
    sync_wrapper (listBackend V E) true keyOf func a
        (sync_wrapper (listBackend V E) true keyOf func a s).state =
      ⟨.error e, s, 1, 1, 0⟩ := by
  have h1 : sync_wrapper (listBackend V E) true keyOf func a s =
      ⟨.error e, s, 1, 1, 0⟩ := by
    simp [sync_wrapper, listBackend, hmiss, herr]
  exact ⟨h1, by rw [h1]; exact h1⟩

/-- C5 (witness): a failing call on a concrete empty store leaves it empty
and fails again on the retry. -/
theorem c5_witness :
    sync_wrapper (listBackend Nat String) true (fun _ : Nat => "k")
        (fun _ => .error "boom") 0 [] = ⟨.error "boom", [], 1, 1, 0⟩ ∧
      sync_wrapper (listBackend Nat String) true (fun _ : Nat => "k")
          (fun _ => .error "boom") 0
          (sync_wrapper (listBackend Nat String) true (fun _ : Nat => "k")
              (fun _ => .error "boom") 0 []).state =
        ⟨.error "boom", [], 1, 1, 0⟩ :=
  c5_failure_not_cached (fun _ : Nat => "k") (fun _ => .error "boom") [] 0
    "boom" (by decide) rfl

/-- Backend whose `set` operation always fails with an I/O error, while
`has_key` reports a miss. -/
def badSetBackend : CacheOps Unit Nat String where
  has_key := fun _ _ => .ok false
  get := fun _ _ => .ok 0
  set := fun _ _ _ => .error "io-failure"

/-- C9 (counterexample): the claim that a backend failure never masks the
underlying call's result is false.  Against a backend whose `set` raises,
an enabled call whose wrapped callable succeeds with `42` (it runs exactly
once) surfaces the backend's error to the caller instead of the computed
result — the wrapper neither degrades to pass-through nor preserves the
call's result. -/
theorem c9_counterexample :
    (sync_wrapper badSetBackend true (fun _ : Nat => "k")
        (fun _ => .ok 42) 0 ()).result = .error "io-failure" ∧
      (sync_wrapper badSetBackend true (fun _ : Nat => "k")
          (fun _ => .ok 42) 0 ()).calls = 1 ∧
      (fun _ : Nat => (.ok 42 : Except String Nat)) 0 = .ok 42 :=
  ⟨rfl, rfl, rfl⟩

/-- C9 (amended): a backend `has_key`, `get` or `set` failure during an
enabled call propagates to the caller unchanged as that backend's own
error — never a silently wrong value, and never conflated with a miss —
but the wrapper does not degrade to pass-through: a `has_key`/`get` failure
aborts before the callable runs, and a `set` failure after a successful
invocation aborts the call and loses the computed result. -/
theorem c9_backend_error_propagation {α σ V E : Type}
    (B : CacheOps σ V E) (keyOf : α → String) (func : α → Except E V)
    (a : α) (s : σ) :
    (∀ e, B.has_key s (keyOf a) = .error e →
        sync_wrapper B true keyOf func a s = ⟨.error e, s, 0, 1, 0⟩) ∧
    (∀ e, B.has_key s (keyOf a) = .ok true → B.get s (keyOf a) = .error e →
        sync_wrapper B true keyOf func a s = ⟨.error e, s, 0, 2, 0⟩) ∧
    (∀ e v, B.has_key s (keyOf a) = .ok false → func a = .ok v →
        B.set s (keyOf a) v = .error e →
        sync_wrapper B true keyOf func a s = ⟨.error e, s, 1, 1, 1⟩) := by
  refine ⟨fun e h => ?_, fun e h1 h2 => ?_, fun e v h1 h2 h3 => ?_⟩
  · simp [sync_wrapper, h]
  · simp [sync_wrapper, h1, h2]
  · simp [sync_wrapper, h1, h2, h3]

/-- C9 (witness): the `set`-failure propagation applied to the concrete
failing backend. -/
theorem c9_witness :
    sync_wrapper badSetBackend true (fun _ : Nat => "k") (fun _ => .ok 42) 0 ()
      = ⟨.error "io-failure", (), 1, 1, 1⟩ :=
  (c9_backend_error_propagation badSetBackend (fun _ : Nat => "k")
      (fun _ => .ok 42) 0 ()).2.2 "io-failure" 42 rfl rfl rfl
